import Mathlib

/-!
Verification development for the mood-lifter-hooks message-sourcing pipeline.

The Python modules `lib/config.py`, `lib/message_generator.py`,
`lib/rate_limiter.py` and `lib/api_integrations.py` are shallowly embedded:
pure functions become Lean functions, the mutable rate-limiter / cache state
becomes explicit state passing, wall-clock time and random draws become
explicit parameters, and external effects (network, subprocess) become
explicit inputs.  Times are rationals (minutes/seconds as noted at each
definition); machine hashing (MD5, used for cache keys) is embedded exactly
over byte lists.
-/

namespace MoodLifter

/-! ### MD5 (as used by `hashlib.md5` in `APIClient._get_cache_key`) -/

namespace MD5

def mask32 : Nat := 4294967295

/-- Left-rotate a 32-bit word by `s` bits. -/
def rotl (x s : Nat) : Nat := ((x <<< s) ||| (x >>> (32 - s))) &&& mask32

/-- The 64 round constants `floor(abs(sin(i+1)) * 2^32)`. -/
def K : List Nat := [
  3614090360, 3905402710, 606105819, 3250441966, 4118548399, 1200080426, 2821735955, 4249261313,
  1770035416, 2336552879, 4294925233, 2304563134, 1804603682, 4254626195, 2792965006, 1236535329,
  4129170786, 3225465664, 643717713, 3921069994, 3593408605, 38016083, 3634488961, 3889429448,
  568446438, 3275163606, 4107603335, 1163531501, 2850285829, 4243563512, 1735328473, 2368359562,
  4294588738, 2272392833, 1839030562, 4259657740, 2763975236, 1272893353, 4139469664, 3200236656,
  681279174, 3936430074, 3572445317, 76029189, 3654602809, 3873151461, 530742520, 3299628645,
  4096336452, 1126891415, 2878612391, 4237533241, 1700485571, 2399980690, 4293915773, 2240044497,
  1873313359, 4264355552, 2734768916, 1309151649, 4149444226, 3174756917, 718787259, 3951481745]

/-- The per-round left-rotation amounts. -/
def S : List Nat := [
  7, 12, 17, 22, 7, 12, 17, 22, 7, 12, 17, 22, 7, 12, 17, 22,
  5, 9, 14, 20, 5, 9, 14, 20, 5, 9, 14, 20, 5, 9, 14, 20,
  4, 11, 16, 23, 4, 11, 16, 23, 4, 11, 16, 23, 4, 11, 16, 23,
  6, 10, 15, 21, 6, 10, 15, 21, 6, 10, 15, 21, 6, 10, 15, 21]

def fF (b c d : Nat) : Nat := (b &&& c) ||| ((b ^^^ mask32) &&& d)
def fG (b c d : Nat) : Nat := (d &&& b) ||| ((d ^^^ mask32) &&& c)
def fH (b c d : Nat) : Nat := b ^^^ c ^^^ d
def fI (b c d : Nat) : Nat := c ^^^ (b ||| (d ^^^ mask32))

structure St where
  a : Nat
  b : Nat
  c : Nat
  d : Nat

/-- One of the 64 rounds of an MD5 block computation. -/
def step (M : List Nat) (st : St) (i : Nat) : St :=
  let fg : Nat × Nat :=
    if i < 16 then (fF st.b st.c st.d, i)
    else if i < 32 then (fG st.b st.c st.d, (5 * i + 1) % 16)
    else if i < 48 then (fH st.b st.c st.d, (3 * i + 5) % 16)
    else (fI st.b st.c st.d, (7 * i) % 16)
  let tmp := (st.a + fg.1 + K.getD i 0 + M.getD fg.2 0) &&& mask32
  ⟨st.d, (st.b + rotl tmp (S.getD i 0)) &&& mask32, st.b, st.c⟩

/-- Convert a 64-byte block into 16 little-endian 32-bit words. -/
def toWordsLE : List Nat → List Nat
  | b0 :: b1 :: b2 :: b3 :: rest =>
      (b0 + 256 * b1 + 65536 * b2 + 16777216 * b3) :: toWordsLE rest
  | _ => []

def processBlock (st : St) (block : List Nat) : St :=
  let M := toWordsLE block
  let r := (List.range 64).foldl (step M) st
  ⟨(st.a + r.a) &&& mask32, (st.b + r.b) &&& mask32,
   (st.c + r.c) &&& mask32, (st.d + r.d) &&& mask32⟩

/-- Split a byte list into 64-byte blocks (fuel-based structural recursion). -/
def toBlocksAux : Nat → List Nat → List (List Nat)
  | 0, _ => []
  | _, [] => []
  | fuel + 1, l => l.take 64 :: toBlocksAux fuel (l.drop 64)

/-- MD5 padding: append `0x80`, zero bytes to 56 mod 64, then the bit length
as a 64-bit little-endian quantity. -/
def pad (msg : List Nat) : List Nat :=
  let len := msg.length
  let z := (120 - ((len + 1) % 64)) % 64
  let bitLen := (8 * len) % (2 ^ 64)
  msg ++ (128 :: List.replicate z 0) ++
    (List.range 8).map (fun i => (bitLen >>> (8 * i)) &&& 255)

def md5St (msg : List Nat) : St :=
  let padded := pad msg
  (toBlocksAux padded.length padded).foldl processBlock
    ⟨1732584193, 4023233417, 2562383102, 271733878⟩

def wordBytesLE (w : Nat) : List Nat :=
  [w &&& 255, (w >>> 8) &&& 255, (w >>> 16) &&& 255, (w >>> 24) &&& 255]

/-- The 16-byte MD5 digest of a byte list. -/
def digest (msg : List Nat) : List Nat :=
  let st := md5St msg
  wordBytesLE st.a ++ wordBytesLE st.b ++ wordBytesLE st.c ++ wordBytesLE st.d

def hexChar (n : Nat) : Char := if n < 10 then Char.ofNat (48 + n) else Char.ofNat (87 + n)

def byteHex (b : Nat) : List Char := [hexChar (b / 16), hexChar (b % 16)]

/-- The lowercase hex digest, matching Python's `hexdigest()`. -/
def hexdigest (msg : List Nat) : String :=
  String.mk ((digest msg).foldr (fun b acc => byteHex b ++ acc) [])

end MD5

/-- UTF-8 encoding of one character (as Python's `str.encode()`). -/
def utf8EncodeChar (c : Char) : List Nat :=
  let n := c.toNat
  if n < 128 then [n]
  else if n < 2048 then [192 ||| (n >>> 6), 128 ||| (n &&& 63)]
  else if n < 65536 then
    [224 ||| (n >>> 12), 128 ||| ((n >>> 6) &&& 63), 128 ||| (n &&& 63)]
  else
    [240 ||| (n >>> 18), 128 ||| ((n >>> 12) &&& 63),
     128 ||| ((n >>> 6) &&& 63), 128 ||| (n &&& 63)]

/-- UTF-8 encoding of a string (as Python's `str.encode()`). -/
def utf8Encode (s : String) : List Nat :=
  s.data.foldr (fun c acc => utf8EncodeChar c ++ acc) []

/-! ### Association-list primitives for Python `dict` state -/

/-- `d[k]` / `d.get(k)` on a dict modelled as an association list. -/
def lookupKey {β : Type} (k : String) : List (String × β) → Option β
  | [] => none
  | (k1, v) :: rest => if k1 = k then some v else lookupKey k rest

/-- `del d[k]` on a dict modelled as an association list. -/
def eraseKey {β : Type} (k : String) : List (String × β) → List (String × β)
  | [] => []
  | (k1, v) :: rest => if k1 = k then eraseKey k rest else (k1, v) :: eraseKey k rest

/-- `d[k] = v` on a dict modelled as an association list (the new binding is
put in front; any stale binding is dropped). -/
def setKey {β : Type} (k : String) (v : β) (l : List (String × β)) : List (String × β) :=
  (k, v) :: eraseKey k l

/-! ### `lib/rate_limiter.py` -/

/-- A value stored in the rate limiter's `_state` dict: either a parsed
`datetime` (time measured in minutes, as a rational) or a value that failed
ISO parsing (`datetime.fromisoformat` raised, the raw value was kept). -/
inductive RLVal where
  | ts (t : ℚ)
  | corrupt
deriving DecidableEq

/-- `RateLimiter._state`. -/
abbrev RLState := List (String × RLVal)

namespace RateLimiter

/-- `RateLimiter.should_show(content_type, cooldown_minutes)` at wall-clock
time `now` (minutes).  `timedelta(minutes=m)` compares as the rational `m`. -/
def should_show (st : RLState) (now : ℚ) (content_type : String)
    (cooldown_minutes : ℤ) : Bool :=
  match lookupKey ("last_shown_" ++ content_type) st with
  | none => true
  | some .corrupt => true
  | some (.ts last) => decide ((cooldown_minutes : ℚ) ≤ now - last)

/-- `RateLimiter.mark_shown(content_type)` at time `now`. -/
def mark_shown (st : RLState) (now : ℚ) (content_type : String) : RLState :=
  setKey ("last_shown_" ++ content_type) (RLVal.ts now) st

end RateLimiter

/-! ### `lib/config.py` — the getter surface `generate_message` consumes.

The `Config` object is a JSON/YAML document behind getter methods; we embed
it as the record of those getters' results. -/

structure Config where
  eventEnabled : String → Bool
  eventProbability : String → ℚ
  ollamaEnabled : Bool
  useVariety : Bool
  weights : List (String × Nat)
  jwEnabled : Bool
  externalApisEnabled : Bool
  preferredSourcesForTime : List String
  maxLength : Nat
  includeEmojis : Bool
  jwRateLimitMinutes : ℤ

/-- `Config.should_show_message(event_type)` with the call to
`random.random()` (uniform on `[0,1)`) made an explicit argument `draw`. -/
def Config.should_show_message (cfg : Config) (event_type : String) (draw : ℚ) : Bool :=
  if !(cfg.eventEnabled event_type) then false
  else decide (draw < cfg.eventProbability event_type)

/-- `should_show_jw_content()` from `lib/rate_limiter.py`: cooldown from
config, content type `"jw_daily_text"`. -/
def should_show_jw_content (cfg : Config) (st : RLState) (now : ℚ) : Bool :=
  RateLimiter.should_show st now "jw_daily_text" cfg.jwRateLimitMinutes

/-- `mark_jw_content_shown()` from `lib/rate_limiter.py`. -/
def mark_jw_content_shown (st : RLState) (now : ℚ) : RLState :=
  RateLimiter.mark_shown st now "jw_daily_text"

/-! ### `lib/message_generator.py` -/

/-- Python `str.lower()` restricted to ASCII case mapping (the event names
compared against are ASCII). -/
def strLower (s : String) : String := String.mk (s.data.map Char.toLower)

/-- The `event_map.get(event_type.lower(), event_type)` normalisation used
throughout `message_generator.py`. -/
def normalizeEvent (e : String) : String :=
  let l := strLower e
  if l = "start" then "SessionStart"
  else if l = "sessionstart" then "SessionStart"
  else if l = "stop" then "Stop"
  else if l = "notification" then "Notification"
  else e

/-- Python truthiness of an `Optional[str]`: `None` and `""` are falsy. -/
def pyStr (m : Option String) : Option String :=
  match m with
  | some s => if s = "" then none else some s
  | none => none

/-- Membership in the emoji character class of `_apply_config_formatting`'s
regex (the union of its six codepoint ranges). -/
def isEmojiChar (c : Char) : Bool :=
  let n := c.toNat
  (128512 ≤ n && n ≤ 128591) || (127744 ≤ n && n ≤ 128511) ||
  (128640 ≤ n && n ≤ 128767) || (127456 ≤ n && n ≤ 127487) ||
  (9986 ≤ n && n ≤ 10160) || (9410 ≤ n && n ≤ 127569)

/-- Python `str.strip()` (whitespace from both ends). -/
def pyStrip (s : String) : String :=
  String.mk (((s.data.dropWhile Char.isWhitespace).reverse.dropWhile Char.isWhitespace).reverse)

/-- `emoji_pattern.sub('', message).strip()`. -/
def stripEmojis (s : String) : String :=
  pyStrip (String.mk (s.data.filter (fun c => !(isEmojiChar c))))

/-- `_apply_config_formatting(message, config)`.  Note the source reads
`config.get_max_message_length()` but deliberately applies no truncation
("we'll skip truncation entirely to respect AI output"); only emoji
stripping is applied when emojis are disabled. -/
def applyConfigFormatting (message : String) (config : Option Config) : String :=
  match config with
  | none => message
  | some cfg =>
    if !(cfg.includeEmojis) then stripEmojis message else message

/-- The weight-driven part of the candidate list (`sources`) built by
`generate_message`: for each `(source, weight)` of `weights.items()`,
`source` is skipped when it is `'jw'` and rate limited, else repeated
`weight` times. -/
def weightedPart (ws : List (String × Nat)) (jwOk : Bool) : List String :=
  match ws with
  | [] => []
  | (s, w) :: rest =>
    (if s = "jw" ∧ jwOk = false then [] else List.replicate w s) ++ weightedPart rest jwOk

/-- The time-preference boost: each preferred source that is a key of
`weights` (and is not a rate-limited `'jw'`) is appended 10 more times. -/
def boostPart (pref : List String) (ws : List (String × Nat)) (jwOk : Bool) : List String :=
  match pref with
  | [] => []
  | s :: rest =>
    (if (ws.any (fun p => p.1 == s)) ∧ (s ≠ "jw" ∨ jwOk = true)
     then List.replicate 10 s else []) ++ boostPart rest ws jwOk

/-- The full candidate list for the weighted draw (the boost is applied only
for `SessionStart`). -/
def buildSources (cfg : Config) (jwOk : Bool) (event_type : String) : List String :=
  weightedPart cfg.weights jwOk ++
    (if event_type = "SessionStart" then boostPart cfg.preferredSourcesForTime cfg.weights jwOk
     else [])

/-- `random.choice(sources) if sources else 'default'`, with the random
index made explicit (`random.choice` returns some element of the list). -/
def chooseFrom (l : List String) (idx : Nat) : String :=
  if l.isEmpty then "default" else l.getD (idx % l.length) "default"

/-- The external, nondeterministic inputs of one `generate_message` call:
random draws, wall-clock time, and the results the providers / ollama /
static-fallback pickers would yield if consulted. -/
structure Env where
  gateDraw : ℚ
  now : ℚ
  choiceIdx : Nat
  jwMessage : Option String
  jokeMessage : Option String
  quoteMessage : Option String
  stoicMessage : Option String
  ollamaMessage : Option String
  fallbackIdx : Nat
  fallbackExternal : String
  fallbackStoic : String

/-- `FALLBACK_MESSAGES["SessionStart"]`. -/
def fallbackSessionStart : List String := [
  "🚀 Ready to create something amazing today (or at least compile without errors)!",
  "💻 Your code journey begins - may your syntax be valid!",
  "✨ Every expert was once a beginner who Googled everything!",
  "🌟 Time to turn ideas into reality (and Stack Overflow into bookmarks)!",
  "💪 You've got this! Coffee level: optimal ☕",
  "🎯 Focus, create, and remember to push to git!",
  "🔥 Another day, another chance to outsmart yesterday's bugs!",
  "🌈 Your creativity + code = endless possibilities (and debugging sessions)!"]

/-- `FALLBACK_MESSAGES["Stop"]`. -/
def fallbackStop : List String := [
  "🎉 Great work! No compiler errors is basically wizardry!",
  "✅ Progress made! Every semicolon counts!",
  "🌟 Well done! Time to rest (and dream in code)!",
  "💯 You crushed it! The bugs didn't stand a chance!",
  "🚀 Mission accomplished! Git commit and chill!",
  "🎯 Target hit! Your keyboard survived another day!",
  "✨ Fantastic session! Even Stack Overflow is proud!",
  "💪 Strong finish! Your rubber duck can rest easy now!"]

/-- `FALLBACK_MESSAGES["Notification"]`. -/
def fallbackNotification : List String := [
  "💡 Keep going! You're debugging like a pro!",
  "🌟 Your persistence is your superpower (and caffeine helps)!",
  "🚀 Every bug fixed is XP gained!",
  "💪 Challenge accepted, Stack Overflow at the ready!",
  "✨ You're doing great! The compiler agrees!",
  "🎯 Stay focused - that 'Aha!' moment is coming!",
  "🔥 Your code is taking shape (and it's beautiful)!",
  "🌈 Remember: progress, not perfection (but working code is nice)!"]

/-- `FALLBACK_MESSAGES.get(normalized_type, FALLBACK_MESSAGES["Notification"])`. -/
def fallbackMessagesFor (evt : String) : List String :=
  if evt = "SessionStart" then fallbackSessionStart
  else if evt = "Stop" then fallbackStop
  else fallbackNotification

/-- `get_fallback_message(event_type)` with the `random.choice` index made
explicit. -/
def get_fallback_message (event_type : String) (idx : Nat) : String :=
  let msgs := fallbackMessagesFor (normalizeEvent event_type)
  msgs.getD (idx % msgs.length) ""

/-- The `message_source` that `generate_message` settles on, for a call with
`use_config=True` (so a config is present) and `API_FEATURES_AVAILABLE`:
for `SessionStart` with no caller-given source, `'jw'` is forced whenever
its cooldown allows; otherwise the weighted draw over `buildSources`. -/
def selectSource (cfg : Config) (st : RLState) (env : Env) (evt : String)
    (ms0 : Option String) : String :=
  let jwOk := should_show_jw_content cfg st env.now
  let ms1 := if evt = "SessionStart" ∧ ms0 = none
             then (if jwOk then some "jw" else none) else ms0
  match ms1 with
  | some s => s
  | none => chooseFrom (buildSources cfg jwOk evt) env.choiceIdx

/-- The result of the `elif` dispatch over the selected source: the provider
message when its branch is taken and the provider's result is truthy,
`none` otherwise (branch guarded off, provider failed, or empty result). -/
def attemptedMsg (cfg : Config) (env : Env) (msgSource : String) : Option String :=
  if msgSource = "jw" then (if cfg.jwEnabled then pyStr env.jwMessage else none)
  else if msgSource = "joke" then (if cfg.externalApisEnabled then pyStr env.jokeMessage else none)
  else if msgSource = "quote" then (if cfg.externalApisEnabled then pyStr env.quoteMessage else none)
  else if msgSource = "stoic" then pyStr env.stoicMessage
  else none

/-- What `generate_message` does once the source is fixed: return the
provider's message (marking jw content shown on a successful jw return), or
fall through to the ollama default path and then the static fallbacks. -/
def pipelineDispatch (cfg : Config) (st : RLState) (env : Env) (evt : String)
    (msgSource : String) : String × RLState :=
  let use_ollama := cfg.ollamaEnabled
  match attemptedMsg cfg env msgSource with
  | some m =>
    if msgSource = "jw" then
      (applyConfigFormatting m (some cfg), mark_jw_content_shown st env.now)
    else
      (applyConfigFormatting m (some cfg), st)
  | none =>
    match (if use_ollama then pyStr env.ollamaMessage else none) with
    | some m => (applyConfigFormatting m (some cfg), st)
    | none =>
      let fb := if msgSource = "joke" ∨ msgSource = "quote" then env.fallbackExternal
                else if msgSource = "stoic" then env.fallbackStoic
                else get_fallback_message evt env.fallbackIdx
      (applyConfigFormatting fb (some cfg), st)

/-- The body of `generate_message` after the probability gate: source
selection, provider dispatch (the `elif` chain), the jw `mark_shown` on
success, the ollama default path, and the static fallbacks.  Returns the
message together with the rate-limiter state after the call. -/
def pipeline (cfg : Config) (st : RLState) (env : Env) (evt : String)
    (ms0 : Option String) : String × RLState :=
  pipelineDispatch cfg st env evt (selectSource cfg st env evt ms0)

/-- `generate_message(event_type, message_source=...)` with
`use_config=True`, defaults for the remaining arguments, and all external
effects drawn from `env`.  Returns the message and the rate-limiter state
after the call. -/
def generateMessage (cfg : Config) (st : RLState) (env : Env)
    (event_type : String) (message_source : Option String) : String × RLState :=
  let evt := normalizeEvent event_type
  if cfg.should_show_message evt env.gateDraw then pipeline cfg st env evt message_source
  else ("", st)

/-! ### `lib/api_integrations.py` — cache and `APIClient` -/

/-- `CacheEntry(data, expires_at)`; time in minutes as a rational. -/
structure CacheEntry (α : Type) where
  data : α
  expires_at : ℚ

/-- `CacheEntry.is_expired()`: `datetime.now() > self.expires_at`. -/
def CacheEntry.is_expired {α : Type} (e : CacheEntry α) (now : ℚ) : Bool :=
  decide (e.expires_at < now)

/-- The client's cache state: the in-memory dict `_cache`, the on-disk
per-key files (as a map keyed by file stem), and the `persistent_cache`
flag. -/
structure CacheState (α : Type) where
  mem : List (String × CacheEntry α)
  disk : List (String × CacheEntry α)
  persistent : Bool

/-- `APIClient._save_persistent_cache()`: write every non-expired in-memory
entry to its per-key file; a no-op when persistence is off. -/
def savePersistentCache {α : Type} (st : CacheState α) (now : ℚ) : CacheState α :=
  let newDisk := st.mem.foldl
    (fun d p => if p.2.is_expired now then d else setKey p.1 p.2 d) st.disk
  if st.persistent then { st with disk := newDisk } else st

/-- The second half of `APIClient._get_from_cache`: the persistent-cache
file lookup, reached when the key is not (or no longer) in memory. -/
def diskLookup {α : Type} (st : CacheState α) (key : String) (now : ℚ) :
    Option α × CacheState α :=
  if st.persistent && (lookupKey key st.mem).isNone then
    match lookupKey key st.disk with
    | some e =>
      if !(e.is_expired now) then (some e.data, { st with mem := setKey key e st.mem })
      else (none, { st with disk := eraseKey key st.disk })
    | none => (none, st)
  else (none, st)

/-- `APIClient._get_from_cache(cache_key)` at time `now`: memory first
(lazily deleting an expired hit, then re-syncing disk), then the persistent
files. -/
def getFromCache {α : Type} (st : CacheState α) (key : String) (now : ℚ) :
    Option α × CacheState α :=
  match lookupKey key st.mem with
  | some e =>
    if !(e.is_expired now) then (some e.data, st)
    else
      let st1 : CacheState α := { st with mem := eraseKey key st.mem }
      diskLookup (savePersistentCache st1 now) key now
  | none => diskLookup st key now

/-- `APIClient._add_to_cache(cache_key, data)` at time `now` with the
client's `cache_ttl_minutes`. -/
def addToCache {α : Type} (st : CacheState α) (key : String) (data : α)
    (now : ℚ) (ttl_minutes : ℤ) : CacheState α :=
  let entry : CacheEntry α := ⟨data, now + ttl_minutes⟩
  let st1 : CacheState α := { st with mem := setKey key entry st.mem }
  if st1.persistent then { st1 with disk := setKey key entry st1.disk } else st1

/-! #### Cache keys (`APIClient._get_cache_key`) -/

/-- One hex digit of `\uXXXX` escapes and of `hexdigest`. -/
def hex4 (n : Nat) : List Char :=
  [MD5.hexChar (n / 4096 % 16), MD5.hexChar (n / 256 % 16),
   MD5.hexChar (n / 16 % 16), MD5.hexChar (n % 16)]

/-- `json.dumps` escaping of one character (defaults: `ensure_ascii=True`). -/
def jsonEscapeChar (c : Char) : List Char :=
  if c = '"' then ['\\', '"']
  else if c = '\\' then ['\\', '\\']
  else if c = Char.ofNat 10 then ['\\', 'n']
  else if c = Char.ofNat 9 then ['\\', 't']
  else if c = Char.ofNat 13 then ['\\', 'r']
  else if c = Char.ofNat 8 then ['\\', 'b']
  else if c = Char.ofNat 12 then ['\\', 'f']
  else if c.toNat < 32 then '\\' :: 'u' :: hex4 c.toNat
  else if c.toNat < 127 then [c]
  else if c.toNat < 65536 then '\\' :: 'u' :: hex4 c.toNat
  else
    let m := c.toNat - 65536
    ('\\' :: 'u' :: hex4 (55296 + m / 1024)) ++ ('\\' :: 'u' :: hex4 (56320 + m % 1024))

/-- A JSON string literal for `s`. -/
def jsonQuote (s : String) : String :=
  "\"" ++ String.mk (s.data.foldr (fun c acc => jsonEscapeChar c ++ acc) []) ++ "\""

/-- The parameter dict sorted by key, as `json.dumps(params, sort_keys=True)`
iterates it. -/
def sortParams (params : List (String × String)) : List (String × String) :=
  params.mergeSort (fun a b => a.1 ≤ b.1)

/-- `json.dumps(params, sort_keys=True)` for a string-valued parameter dict
(default separators `", "` and `": "`). -/
def jsonDumpsSorted (params : List (String × String)) : String :=
  "\x7b" ++ String.intercalate ", "
    ((sortParams params).map (fun p => jsonQuote p.1 ++ ": " ++ jsonQuote p.2)) ++ "\x7d"

/-- The `cache_str` build of `APIClient._get_cache_key(url, params)`: the
url concatenated with the key-sorted JSON dump of the parameters (dump
omitted when the dict is empty, since `if params:` is falsy then). -/
def cacheStr (url : String) (params : List (String × String)) : String :=
  url ++ (if params.isEmpty then "" else jsonDumpsSorted params)

/-- `APIClient._get_cache_key(url, params)`: the md5 hexdigest of
`cache_str`. -/
def getCacheKey (url : String) (params : List (String × String)) : String :=
  MD5.hexdigest (utf8Encode (cacheStr url params))

/-! #### `APIClient.get` -/

/-- What one underlying `session.get` attempt chain amounts to, after the
adapter's bounded retry policy is exhausted: one of the exception classes
the `try` block can surface, or a successfully parsed body. -/
inductive TransportResult (α : Type) where
  | timeout
  | connectionError
  | httpError (status : Nat)
  | otherError
  | success (body : α)

/-- The failure disposition of a transport outcome. -/
def TransportResult.isFailure {α : Type} : TransportResult α → Bool
  | .success _ => false
  | _ => true

/-- Python `str.rstrip('/')`. -/
def rstripSlash (s : String) : String :=
  String.mk (s.data.reverse.dropWhile (fun c => c == '/')).reverse

/-- Python `str.lstrip('/')`. -/
def lstripSlash (s : String) : String :=
  String.mk (s.data.dropWhile (fun c => c == '/'))

/-- The `full_url` computation of `APIClient.get`/`post`. -/
def buildFullUrl (base_url : Option String) (url : String) : String :=
  match pyStr base_url with
  | some b =>
    if url.startsWith "http://" || url.startsWith "https://" then url
    else rstripSlash b ++ "/" ++ lstripSlash url
  | none => url

/-- `APIClient.get(url, params, headers, use_cache)` at time `now`, for a
client with the given base url, TTL and cache state, with the network's
behaviour supplied as `transport`.  Headers do not influence the result
visible here (they are forwarded to the transport).  Every exception listed
in the source's `except` arms yields `(none, ·)`; the function is total, so
no exception propagates. -/
def clientGet {α : Type} (st : CacheState α) (now : ℚ) (ttl : ℤ)
    (base_url : Option String) (url : String) (params : List (String × String))
    (use_cache : Bool) (transport : TransportResult α) : Option α × CacheState α :=
  let full_url := buildFullUrl base_url url
  let key := getCacheKey full_url params
  if use_cache then
    match getFromCache st key now with
    | (some d, st1) => (some d, st1)
    | (none, st1) =>
      match transport with
      | .success body => (some body, addToCache st1 key body now ttl)
      | _ => (none, st1)
  else
    match transport with
    | .success body => (some body, st)
    | _ => (none, st)

/-! ### Concrete fixtures used by witnesses and counterexamples -/

/-- A permissive config: every event enabled with probability 1. -/
def cfgA : Config where
  eventEnabled := fun _ => true
  eventProbability := fun _ => 1
  ollamaEnabled := false
  useVariety := false
  weights := [("default", 3), ("jw", 2), ("joke", 2)]
  jwEnabled := true
  externalApisEnabled := true
  preferredSourcesForTime := ["default"]
  maxLength := 120
  includeEmojis := true
  jwRateLimitMinutes := 30

/-- An environment where every external provider fails. -/
def envA : Env where
  gateDraw := 0
  now := 0
  choiceIdx := 0
  jwMessage := none
  jokeMessage := none
  quoteMessage := none
  stoicMessage := none
  ollamaMessage := none
  fallbackIdx := 0
  fallbackExternal := "fallback joke"
  fallbackStoic := "fallback stoic"

/-- An environment whose scripture provider succeeds. -/
def envJw : Env := { envA with jwMessage := some "Daily text for today." }

/-- `cfgA` with a short display length limit. -/
def cfgShort : Config := { cfgA with maxLength := 5 }

/-- A config with a time-of-day preference for `joke`. -/
def cfgBoost : Config :=
  { cfgA with weights := [("default", 3), ("joke", 5)], preferredSourcesForTime := ["joke"] }

/-- Rate-limiter state where scripture content was shown at time 0. -/
def stJwRecent : RLState := [("last_shown_jw_daily_text", RLVal.ts 0)]

/-- First message of a public ASCII MD5 collision pair (M. Stevens). -/
def collA : String :=
  "TEXTCOLLBYfGiJUETHQ4hAcKSMd5zYpgqf1YRDhkmxHkhPWptrkoyz28wnI9V0aHeAuaKnak"

/-- Second message of the pair: same MD5, differs at one character. -/
def collB : String :=
  "TEXTCOLLBYfGiJUETHQ4hEcKSMd5zYpgqf1YRDhkmxHkhPWptrkoyz28wnI9V0aHeAuaKnak"

/-! ### Association-list lemmas -/

theorem lookup_eraseKey {β : Type} (k : String) (l : List (String × β)) :
    lookupKey k (eraseKey k l) = none := by
  induction l with
  | nil => rfl
  | cons q rest ih =>
    rcases q with ⟨k1, v1⟩
    by_cases h : k1 = k
    · simpa [eraseKey, h] using ih
    · simpa [eraseKey, lookupKey, h] using ih

theorem lookup_setKey {β : Type} (k : String) (v : β) (l : List (String × β)) :
    lookupKey k (setKey k v l) = some v := by
  simp [setKey, lookupKey]

theorem lookup_eraseKey_ne {β : Type} (k k' : String) (l : List (String × β))
    (h : k' ≠ k) : lookupKey k' (eraseKey k l) = lookupKey k' l := by
  induction l with
  | nil => rfl
  | cons q rest ih =>
    rcases q with ⟨k1, v1⟩
    by_cases hq : k1 = k
    · subst hq
      have hne : k1 ≠ k' := fun e => h e.symm
      simp [eraseKey, lookupKey, hne, ih]
    · by_cases hq' : k1 = k'
      · simp [eraseKey, lookupKey, hq, hq', h]
      · simpa [eraseKey, lookupKey, hq, hq'] using ih

theorem lookup_setKey_ne {β : Type} (k k' : String) (v : β) (l : List (String × β))
    (h : k' ≠ k) : lookupKey k' (setKey k v l) = lookupKey k' l := by
  have hkk : k ≠ k' := Ne.symm h
  simp [setKey, lookupKey, hkk, lookup_eraseKey_ne k k' l h]

/-! ### Claim C4 — rate limiter cooldown semantics -/

/-- Claim C4: `should_show` is true exactly when there is no recorded
timestamp, the recorded value is corrupt, or at least `C` minutes have
elapsed since it; it is true with no record, false immediately after
`mark_shown` for positive `C`, and true again `C` minutes past the mark. -/
theorem should_show_spec (st : RLState) (ct : String) (C : ℤ) (now now' : ℚ) :
    (RateLimiter.should_show st now ct C = true ↔
      (lookupKey ("last_shown_" ++ ct) st = none ∨
       lookupKey ("last_shown_" ++ ct) st = some RLVal.corrupt ∨
       ∃ t, lookupKey ("last_shown_" ++ ct) st = some (RLVal.ts t) ∧ (C : ℚ) ≤ now - t))
    ∧ (lookupKey ("last_shown_" ++ ct) st = none →
        RateLimiter.should_show st now ct C = true)
    ∧ (0 < C → RateLimiter.should_show (RateLimiter.mark_shown st now ct) now ct C = false)
    ∧ (now + C ≤ now' →
        RateLimiter.should_show (RateLimiter.mark_shown st now ct) now' ct C = true) := by
  refine ⟨?_, ?_, ?_, ?_⟩
  · unfold RateLimiter.should_show
    rcases h : lookupKey ("last_shown_" ++ ct) st with _ | v
    · simp
    · cases v with
      | corrupt => simp
      | ts t =>
        simp only [decide_eq_true_eq]
        constructor
        · intro hle
          exact Or.inr (Or.inr ⟨t, rfl, hle⟩)
        · rintro (h' | h' | ⟨t', ht', hle⟩)
          · exact absurd h' (by simp)
          · exact absurd h' (by simp)
          · cases ht'; exact hle
  · intro h
    unfold RateLimiter.should_show
    rw [h]
  · intro hC
    unfold RateLimiter.should_show RateLimiter.mark_shown
    rw [lookup_setKey]
    simp only [decide_eq_false_iff_not]
    intro hle
    have : (C : ℚ) ≤ 0 := by simpa using hle
    have : (0 : ℚ) < C := by exact_mod_cast hC
    linarith
  · intro h
    unfold RateLimiter.should_show RateLimiter.mark_shown
    rw [lookup_setKey]
    simp only [decide_eq_true_eq]
    linarith

/-- Witness for C4 at a concrete state, content type and cooldown. -/
theorem should_show_spec_witness :
    RateLimiter.should_show [] 0 "jw_daily_text" 30 = true ∧
    RateLimiter.should_show (RateLimiter.mark_shown [] 0 "jw_daily_text") 0
      "jw_daily_text" 30 = false ∧
    RateLimiter.should_show (RateLimiter.mark_shown [] 0 "jw_daily_text") 30
      "jw_daily_text" 30 = true :=
  ⟨(should_show_spec [] "jw_daily_text" 30 0 0).2.1 (by decide),
   (should_show_spec [] "jw_daily_text" 30 0 0).2.2.1 (by decide),
   (should_show_spec [] "jw_daily_text" 30 0 30).2.2.2 (by norm_num)⟩

/-! ### Claim C1 — the probability gate of `generate_message` -/

theorem should_show_message_iff (cfg : Config) (evt : String) (d : ℚ) :
    cfg.should_show_message evt d = true ↔
      (cfg.eventEnabled evt = true ∧ d < cfg.eventProbability evt) := by
  unfold Config.should_show_message
  by_cases h : cfg.eventEnabled evt <;> simp [h]

/-- Claim C1: `generate_message` returns the empty string at the gate exactly
when the event is disabled or the uniform draw fails the configured
probability (`draw ≥ p`); in particular probability 1 lets every draw in
`[0,1)` through and probability 0 blocks every draw.  In all other cases the
message pipeline is entered. -/
theorem gate_spec (cfg : Config) (st : RLState) (env : Env) (e : String)
    (ms : Option String) (h0 : 0 ≤ env.gateDraw) (h1 : env.gateDraw < 1) :
    (generateMessage cfg st env e ms =
      if cfg.eventEnabled (normalizeEvent e) = true ∧
          env.gateDraw < cfg.eventProbability (normalizeEvent e)
       then pipeline cfg st env (normalizeEvent e) ms
       else ("", st))
    ∧ (cfg.eventProbability (normalizeEvent e) = 1 →
        cfg.eventEnabled (normalizeEvent e) = true →
        generateMessage cfg st env e ms = pipeline cfg st env (normalizeEvent e) ms)
    ∧ (cfg.eventProbability (normalizeEvent e) = 0 →
        generateMessage cfg st env e ms = ("", st)) := by
  refine ⟨?_, ?_, ?_⟩
  · by_cases h : cfg.should_show_message (normalizeEvent e) env.gateDraw = true
    · rw [show generateMessage cfg st env e ms = pipeline cfg st env (normalizeEvent e) ms by
        simp [generateMessage, h]]
      rw [if_pos ((should_show_message_iff cfg (normalizeEvent e) env.gateDraw).mp h)]
    · rw [show generateMessage cfg st env e ms = ("", st) by
        simp [generateMessage, Bool.eq_false_iff.mpr h]]
      rw [if_neg (fun hc =>
        h ((should_show_message_iff cfg (normalizeEvent e) env.gateDraw).mpr hc))]
  · intro hp he
    have h : cfg.should_show_message (normalizeEvent e) env.gateDraw = true :=
      (should_show_message_iff cfg (normalizeEvent e) env.gateDraw).mpr
        ⟨he, by rw [hp]; exact h1⟩
    simp [generateMessage, h]
  · intro hp
    have h : cfg.should_show_message (normalizeEvent e) env.gateDraw = false := by
      apply Bool.eq_false_iff.mpr
      intro htrue
      obtain ⟨he, hd⟩ := (should_show_message_iff cfg (normalizeEvent e) env.gateDraw).mp htrue
      rw [hp] at hd
      exact absurd hd (not_lt.mpr h0)
    simp [generateMessage, h]

/-- Witness for C1: with probability 1 and the event enabled, a concrete
call enters the pipeline; with probability 0 it returns empty. -/
theorem gate_spec_witness :
    generateMessage cfgA [] envA "Stop" none = pipeline cfgA [] envA (normalizeEvent "Stop") none ∧
    generateMessage { cfgA with eventProbability := fun _ => 0 } [] envA "Stop" none = ("", []) :=
  ⟨(gate_spec cfgA [] envA "Stop" none (le_refl 0) (by norm_num [envA])).2.1 rfl rfl,
   (gate_spec { cfgA with eventProbability := fun _ => 0 } [] envA "Stop" none
      (le_refl 0) (by norm_num [envA])).2.2 rfl⟩

/-! ### Claim C3 — `SessionStart` tries scripture first -/

/-- Claim C3: for `SessionStart` with no caller-given source, whenever the
jw cooldown is satisfied the selected source is `'jw'` — independent of the
configured weights and of the random draw — and the weighted draw over the
candidate list happens only when jw is rate limited. -/
theorem sessionStart_jw_priority (cfg : Config) (st : RLState) (env : Env) :
    (should_show_jw_content cfg st env.now = true →
      selectSource cfg st env "SessionStart" none = "jw")
    ∧ (should_show_jw_content cfg st env.now = false →
      selectSource cfg st env "SessionStart" none =
        chooseFrom (buildSources cfg false "SessionStart") env.choiceIdx) := by
  constructor <;> intro h <;> simp [selectSource, h]

/-- Witness for C3: fresh state selects `jw`; recently-shown state falls
back to the weighted draw. -/
theorem sessionStart_jw_priority_witness :
    selectSource cfgA [] envA "SessionStart" none = "jw" ∧
    selectSource cfgA stJwRecent { envA with now := 5 } "SessionStart" none =
      chooseFrom (buildSources cfgA false "SessionStart") envA.choiceIdx :=
  ⟨(sessionStart_jw_priority cfgA [] envA).1 rfl,
   (sessionStart_jw_priority cfgA stJwRecent { envA with now := 5 }).2 (by
      simp [should_show_jw_content, RateLimiter.should_show, stJwRecent, lookupKey, cfgA]
      norm_num)⟩

/-! ### Claim C5 — jw `mark_shown` happens exactly on successful display -/

theorem dispatch_snd_of_attempted_none (cfg : Config) (st : RLState) (env : Env)
    (evt s : String) (h : attemptedMsg cfg env s = none) :
    (pipelineDispatch cfg st env evt s).2 = st := by
  cases ho : (if cfg.ollamaEnabled = true then pyStr env.ollamaMessage else none) with
  | none => simp [pipelineDispatch, h, ho]
  | some m => simp [pipelineDispatch, h, ho]

theorem dispatch_snd_of_attempted_some (cfg : Config) (st : RLState) (env : Env)
    (evt s m : String) (h : attemptedMsg cfg env s = some m) :
    (pipelineDispatch cfg st env evt s).2 =
      if s = "jw" then mark_jw_content_shown st env.now else st := by
  by_cases hs : s = "jw"
  · subst hs; simp [pipelineDispatch, h]
  · simp [pipelineDispatch, h, hs]

theorem dispatch_snd (cfg : Config) (st : RLState) (env : Env) (evt s : String) :
    (pipelineDispatch cfg st env evt s).2 =
      if s = "jw" ∧ cfg.jwEnabled = true ∧ pyStr env.jwMessage ≠ none
      then mark_jw_content_shown st env.now
      else st := by
  by_cases hs : s = "jw"
  · subst hs
    by_cases hj : cfg.jwEnabled
    · cases hm : pyStr env.jwMessage with
      | none =>
        rw [dispatch_snd_of_attempted_none cfg st env evt "jw" (by simp [attemptedMsg, hj, hm])]
        simp [hm]
      | some m =>
        rw [dispatch_snd_of_attempted_some cfg st env evt "jw" m (by simp [attemptedMsg, hj, hm])]
        simp [hj, hm]
    · rw [dispatch_snd_of_attempted_none cfg st env evt "jw"
        (by simp [attemptedMsg, Bool.eq_false_iff.mpr hj])]
      simp [Bool.eq_false_iff.mpr hj]
  · have h2 : ∀ o : Option String, (pipelineDispatch cfg st env evt s).2 = st := by
      intro o
      cases hA : attemptedMsg cfg env s with
      | none => exact dispatch_snd_of_attempted_none cfg st env evt s hA
      | some m =>
        rw [dispatch_snd_of_attempted_some cfg st env evt s m hA]
        simp [hs]
    rw [h2 none]
    simp [hs]

theorem dispatch_fst_jw (cfg : Config) (st : RLState) (env : Env) (evt m : String)
    (hj : cfg.jwEnabled = true) (hm : pyStr env.jwMessage = some m) :
    (pipelineDispatch cfg st env evt "jw").1 =
      applyConfigFormatting m (some cfg) := by
  unfold pipelineDispatch
  rw [show attemptedMsg cfg env "jw" = some m by simp [attemptedMsg, hj, hm]]
  simp

/-- Claim C5: during one `generate_message` call, the jw rate-limiter
timestamp is updated exactly when jw was the selected source, jw is enabled,
and the provider returned a truthy message (which the call then returns,
formatted); otherwise the rate-limiter state is unchanged. -/
theorem jw_mark_iff (cfg : Config) (st : RLState) (env : Env) (e : String)
    (ms : Option String) :
    ((generateMessage cfg st env e ms).2 =
      if cfg.should_show_message (normalizeEvent e) env.gateDraw = true ∧
          selectSource cfg st env (normalizeEvent e) ms = "jw" ∧
          cfg.jwEnabled = true ∧ pyStr env.jwMessage ≠ none
       then mark_jw_content_shown st env.now
       else st)
    ∧ (cfg.should_show_message (normalizeEvent e) env.gateDraw = true →
       selectSource cfg st env (normalizeEvent e) ms = "jw" →
       cfg.jwEnabled = true → ∀ m, pyStr env.jwMessage = some m →
       (generateMessage cfg st env e ms).1 = applyConfigFormatting m (some cfg)) := by
  constructor
  · by_cases hg : cfg.should_show_message (normalizeEvent e) env.gateDraw = true
    · have h2 : (generateMessage cfg st env e ms).2 =
          (pipeline cfg st env (normalizeEvent e) ms).2 := by
        simp [generateMessage, hg]
      rw [h2, pipeline, dispatch_snd]
      simp [hg]
    · have h2 : (generateMessage cfg st env e ms).2 = st := by
        simp [generateMessage, Bool.eq_false_iff.mpr hg]
      rw [h2, if_neg (by intro hc; exact hg hc.1)]
  · intro hg hsrc hj m hm
    have h1 : (generateMessage cfg st env e ms).1 =
        (pipeline cfg st env (normalizeEvent e) ms).1 := by
      simp [generateMessage, hg]
    rw [h1, pipeline, hsrc]
    exact dispatch_fst_jw cfg st env (normalizeEvent e) m hj hm

/-- Witness for C5: a concrete `SessionStart` call whose jw provider
succeeds returns the jw text and marks it shown. -/
theorem jw_mark_iff_witness :
    (generateMessage cfgA [] envJw "SessionStart" none).1 =
      applyConfigFormatting "Daily text for today." (some cfgA) :=
  (jw_mark_iff cfgA [] envJw "SessionStart" none).2
    (by simp [Config.should_show_message, cfgA, envJw, envA])
    (by decide)
    rfl "Daily text for today." rfl

/-! ### Claim C6 — rate-limited jw is excluded from the candidate list -/

theorem mem_weightedPart {s : String} {ws : List (String × Nat)} {jwOk : Bool}
    (h : s ∈ weightedPart ws jwOk) : ∃ w, (s, w) ∈ ws := by
  induction ws with
  | nil => cases h
  | cons p rest ih =>
    rcases p with ⟨s1, w1⟩
    rw [weightedPart] at h
    rcases List.mem_append.mp h with h1 | h1
    · by_cases hg : s1 = "jw" ∧ jwOk = false
      · rw [if_pos hg] at h1; cases h1
      · rw [if_neg hg] at h1
        obtain rfl := List.eq_of_mem_replicate h1
        exact ⟨w1, List.mem_cons_self _ _⟩
    · obtain ⟨w, hw⟩ := ih h1
      exact ⟨w, List.mem_cons_of_mem _ hw⟩

theorem jw_not_mem_weightedPart (ws : List (String × Nat)) :
    "jw" ∉ weightedPart ws false := by
  induction ws with
  | nil => simp [weightedPart]
  | cons p rest ih =>
    rcases p with ⟨s1, w1⟩
    rw [weightedPart]
    intro h
    rcases List.mem_append.mp h with h1 | h1
    · by_cases hg : s1 = "jw"
      · rw [if_pos ⟨hg, rfl⟩] at h1; cases h1
      · rw [if_neg (by intro hc; exact hg hc.1)] at h1
        exact hg (List.eq_of_mem_replicate h1).symm
    · exact ih h1

theorem jw_not_mem_boostPart (pref : List String) (ws : List (String × Nat)) :
    "jw" ∉ boostPart pref ws false := by
  induction pref with
  | nil => simp [boostPart]
  | cons p rest ih =>
    rw [boostPart]
    intro h
    rcases List.mem_append.mp h with h1 | h1
    · by_cases hg : (ws.any (fun q => q.1 == p)) ∧ (p ≠ "jw" ∨ false = true)
      · rw [if_pos hg] at h1
        rcases hg.2 with hne | hfalse
        · exact hne (List.eq_of_mem_replicate h1).symm
        · cases hfalse
      · rw [if_neg hg] at h1; cases h1
    · exact ih h1

theorem chooseFrom_default_or_mem (l : List String) (i : Nat) :
    chooseFrom l i = "default" ∨ chooseFrom l i ∈ l := by
  unfold chooseFrom
  by_cases h : l.isEmpty
  · simp [h]
  · right
    rw [if_neg h]
    have hne : l ≠ [] := by
      intro hnil; rw [hnil] at h; exact h rfl
    have hlen : i % l.length < l.length :=
      Nat.mod_lt _ (List.length_pos.mpr hne)
    rw [List.getD_eq_getElem?_getD, List.getElem?_eq_getElem hlen]
    exact List.getElem_mem _

/-- Claim C6: when the jw cooldown has not elapsed, the candidate list for
the weighted draw contains no occurrence of `jw` even if jw has a nonzero
configured weight, so the drawn source can never be `jw`. -/
theorem jw_excluded_when_cooldown (cfg : Config) (st : RLState) (env : Env)
    (evt : String) (w : Nat) (hw : ("jw", w) ∈ cfg.weights) (hwz : w ≠ 0)
    (hcool : should_show_jw_content cfg st env.now = false) :
    "jw" ∉ buildSources cfg (should_show_jw_content cfg st env.now) evt ∧
    selectSource cfg st env evt none ≠ "jw" := by
  rw [hcool]
  have hnotmem : "jw" ∉ buildSources cfg false evt := by
    rw [buildSources]
    intro h
    rcases List.mem_append.mp h with h1 | h1
    · exact jw_not_mem_weightedPart cfg.weights h1
    · by_cases he : evt = "SessionStart"
      · rw [if_pos he] at h1
        exact jw_not_mem_boostPart cfg.preferredSourcesForTime cfg.weights h1
      · rw [if_neg he] at h1; cases h1
  refine ⟨hnotmem, ?_⟩
  have hsel : selectSource cfg st env evt none =
      chooseFrom (buildSources cfg false evt) env.choiceIdx := by
    unfold selectSource
    rw [hcool]
    by_cases he : evt = "SessionStart" <;> simp [he]
  rw [hsel]
  rcases chooseFrom_default_or_mem (buildSources cfg false evt) env.choiceIdx with h | h
  · intro hc; rw [h] at hc; exact absurd hc (by decide)
  · intro hc; rw [hc] at h; exact hnotmem h

/-- Witness for C6: jw has weight 2 in `cfgA` but was shown 5 minutes ago
with a 30-minute cooldown, so it is absent from the pool. -/
theorem jw_excluded_when_cooldown_witness :
    "jw" ∉ buildSources cfgA false "SessionStart" ∧
    selectSource cfgA stJwRecent { envA with now := 5 } "SessionStart" none ≠ "jw" := by
  have hcool : should_show_jw_content cfgA stJwRecent (5 : ℚ) = false := by
    simp [should_show_jw_content, RateLimiter.should_show, stJwRecent, lookupKey, cfgA]
    norm_num
  have h := jw_excluded_when_cooldown cfgA stJwRecent { envA with now := 5 }
    "SessionStart" 2 (by decide) (by decide) hcool
  rw [show should_show_jw_content cfgA stJwRecent ({ envA with now := 5 } : Env).now
      = false from hcool] at h
  exact h

/-! ### Claim C7 — additive time-preference boost -/

theorem count_replicate_ne {s b : String} (n : Nat) (h : b ≠ s) :
    (List.replicate n b).count s = 0 :=
  List.count_eq_zero_of_not_mem (fun hm => h (List.eq_of_mem_replicate hm).symm)

theorem count_weightedPart_of_not_key (s : String) (ws : List (String × Nat))
    (jwOk : Bool) (h : ∀ p ∈ ws, p.1 ≠ s) :
    (weightedPart ws jwOk).count s = 0 := by
  induction ws with
  | nil => simp [weightedPart]
  | cons p rest ih =>
    rcases p with ⟨s1, w1⟩
    have hs1 : s1 ≠ s := h (s1, w1) (List.mem_cons_self _ _)
    rw [weightedPart, List.count_append]
    have hhead : (if s1 = "jw" ∧ jwOk = false then [] else List.replicate w1 s1).count s = 0 := by
      split
      · simp
      · exact count_replicate_ne w1 hs1
    rw [hhead, ih (fun q hq => h q (List.mem_cons_of_mem _ hq))]

theorem count_weightedPart (s : String) (w : Nat) (ws : List (String × Nat))
    (jwOk : Bool) (hnd : (ws.map Prod.fst).Nodup) (hmem : (s, w) ∈ ws)
    (hjw : s ≠ "jw" ∨ jwOk = true) :
    (weightedPart ws jwOk).count s = w := by
  induction ws with
  | nil => cases hmem
  | cons p rest ih =>
    rcases p with ⟨s1, w1⟩
    rw [List.map_cons, List.nodup_cons] at hnd
    rw [weightedPart, List.count_append]
    rcases List.mem_cons.mp hmem with heq | hrest
    · have h1 : s = s1 := congrArg Prod.fst heq
      have h2 : w = w1 := congrArg Prod.snd heq
      subst h1
      subst h2
      have hguard : ¬(s = "jw" ∧ jwOk = false) := by
        rintro ⟨rfl, hfalse⟩
        rcases hjw with hne | htrue
        · exact hne rfl
        · rw [htrue] at hfalse; cases hfalse
      rw [if_neg hguard]
      have hrest0 : (weightedPart rest jwOk).count s = 0 := by
        apply count_weightedPart_of_not_key
        intro q hq hq1
        apply hnd.1
        have hmm : q.1 ∈ List.map Prod.fst rest := List.mem_map_of_mem Prod.fst hq
        rw [hq1] at hmm
        exact hmm
      rw [hrest0, List.count_replicate_self]
      simp
    · have hs1 : s1 ≠ s := by
        intro hc
        apply hnd.1
        have hmm : (Prod.fst (s, w) : String) ∈ List.map Prod.fst rest :=
          List.mem_map_of_mem Prod.fst hrest
        rw [← hc] at hmm
        exact hmm
      have hhead : (if s1 = "jw" ∧ jwOk = false then [] else List.replicate w1 s1).count s = 0 := by
        split
        · simp
        · exact count_replicate_ne w1 hs1
      rw [hhead, ih hnd.2 hrest]
      simp

theorem count_boostPart (s : String) (pref : List String) (ws : List (String × Nat))
    (jwOk : Bool) (hkey : ws.any (fun p => p.1 == s) = true)
    (hjw : s ≠ "jw" ∨ jwOk = true) :
    (boostPart pref ws jwOk).count s = 10 * pref.count s := by
  induction pref with
  | nil => simp [boostPart]
  | cons p rest ih =>
    rw [boostPart, List.count_append]
    by_cases hp : p = s
    · subst hp
      rw [if_pos ⟨hkey, hjw⟩, ih, List.count_replicate_self, List.count_cons_self]
      ring
    · have hhead : (if (ws.any (fun q => q.1 == p)) ∧ (p ≠ "jw" ∨ jwOk = true)
          then List.replicate 10 p else []).count s = 0 := by
        split
        · exact count_replicate_ne 10 hp
        · simp
      rw [hhead, ih, List.count_cons_of_ne (fun hc => hp hc.symm)]
      simp

/-- Counterexample to C7 as stated: for the `Stop` event the boost is never
applied, so a preferred, weighted, non-jw source keeps multiplicity equal to
its bare weight (5, not 5 + 10). -/
theorem boost_not_applied_for_stop :
    "joke" ∈ cfgBoost.preferredSourcesForTime ∧
    ("joke", 5) ∈ cfgBoost.weights ∧
    (buildSources cfgBoost true "Stop").count "joke" = 5 ∧
    (5 : Nat) ≠ 5 + 10 := by decide

/-- Claim C7 (amended): for the `SessionStart` event, a source occurring
once in the time-of-day preference list, present in the weight table (whose
keys are distinct) and not a rate-limited jw, has multiplicity equal to its
configured weight plus the fixed additive boost 10; for any other event type
the boost is not applied and the multiplicity is the bare weight. -/
theorem boost_additive (cfg : Config) (jwOk : Bool) (s : String) (w : Nat)
    (hnd : (cfg.weights.map Prod.fst).Nodup)
    (hmem : (s, w) ∈ cfg.weights)
    (hpref : cfg.preferredSourcesForTime.count s = 1)
    (hjw : s ≠ "jw" ∨ jwOk = true) :
    (buildSources cfg jwOk "SessionStart").count s = w + 10 ∧
    ∀ evt, evt ≠ "SessionStart" → (buildSources cfg jwOk evt).count s = w := by
  have hkey : cfg.weights.any (fun p => p.1 == s) = true := by
    rw [List.any_eq_true]
    exact ⟨(s, w), hmem, by simp⟩
  constructor
  · rw [buildSources, List.count_append, if_pos rfl,
      count_weightedPart s w cfg.weights jwOk hnd hmem hjw,
      count_boostPart s cfg.preferredSourcesForTime cfg.weights jwOk hkey hjw, hpref]
  · intro evt hevt
    rw [buildSources, List.count_append, if_neg hevt]
    simp [count_weightedPart s w cfg.weights jwOk hnd hmem hjw]

/-- Witness for the amended C7: in `cfgBoost` the preferred source `joke`
(weight 5) appears 15 times in the `SessionStart` pool and 5 times in the
`Stop` pool. -/
theorem boost_additive_witness :
    (buildSources cfgBoost true "SessionStart").count "joke" = 5 + 10 ∧
    (buildSources cfgBoost true "Stop").count "joke" = 5 :=
  ⟨(boost_additive cfgBoost true "joke" 5 (by decide) (by decide) (by decide)
      (Or.inl (by decide))).1,
   (boost_additive cfgBoost true "joke" 5 (by decide) (by decide) (by decide)
      (Or.inl (by decide))).2 "Stop" (by decide)⟩

/-! ### Claim C2 — formatting: no length cap is applied -/

/-- Counterexample to C2 as stated: with the configured maximum length 5,
the formatting step returns a 23-character non-enhanced message unchanged,
so the configured cap is not applied. -/
theorem no_truncation_counterexample :
    cfgShort.maxLength = 5 ∧
    applyConfigFormatting "Keep going, great work!" (some cfgShort) =
      "Keep going, great work!" ∧
    ¬ (String.length "Keep going, great work!" ≤ cfgShort.maxLength) := by decide

/-- Claim C2 (amended): the formatting step applies no length cap to any
message — the configured maximum length is read but unused — and its whole
effect is emoji stripping when emojis are disabled (with no config the
message is returned unchanged). -/
theorem formatting_no_cap (cfg : Config) (m : String) :
    applyConfigFormatting m (some cfg) =
      (if cfg.includeEmojis then m else stripEmojis m) ∧
    applyConfigFormatting m none = m := by
  constructor
  · rw [applyConfigFormatting]
    cases h : cfg.includeEmojis <;> simp [h]
  · rfl

/-! ### Claim C8 — cache TTL semantics -/

theorem eraseKey_keys {β : Type} (k : String) (l : List (String × β)) :
    ∀ p ∈ eraseKey k l, p.1 ≠ k := by
  induction l with
  | nil => intro p hp; cases hp
  | cons q rest ih =>
    rcases q with ⟨k1, v1⟩
    by_cases h : k1 = k
    · rw [eraseKey, if_pos h]; exact ih
    · rw [eraseKey, if_neg h]
      intro p hp
      rcases List.mem_cons.mp hp with rfl | hp'
      · exact h
      · exact ih p hp'

theorem lookup_foldl_save {α : Type} (k : String) (now : ℚ)
    (l : List (String × CacheEntry α)) (hkeys : ∀ p ∈ l, p.1 ≠ k)
    (d0 : List (String × CacheEntry α)) :
    lookupKey k (l.foldl
      (fun d p => if p.2.is_expired now then d else setKey p.1 p.2 d) d0) =
    lookupKey k d0 := by
  induction l generalizing d0 with
  | nil => rfl
  | cons q rest ih =>
    rw [List.foldl_cons, ih (fun p hp => hkeys p (List.mem_cons_of_mem _ hp))]
    by_cases hq : q.2.is_expired now = true
    · rw [if_pos hq]
    · rw [if_neg hq,
        lookup_setKey_ne q.1 k q.2 d0 (Ne.symm (hkeys q (List.mem_cons_self q rest)))]

/-- Claim C8: a value stored with a positive TTL and read strictly before
the TTL elapses comes back unchanged; read strictly after the TTL it is
absent, removed from the memory map, and (in persistent mode) its disk file
is deleted. -/
theorem cache_ttl {α : Type} (st : CacheState α) (key : String) (v : α)
    (ttl : ℤ) (t0 t1 : ℚ) (httl : 0 < ttl) :
    (t1 - t0 < (ttl : ℚ) →
      (getFromCache (addToCache st key v t0 ttl) key t1).1 = some v)
    ∧ ((ttl : ℚ) < t1 - t0 →
        (getFromCache (addToCache st key v t0 ttl) key t1).1 = none ∧
        lookupKey key (getFromCache (addToCache st key v t0 ttl) key t1).2.mem = none ∧
        (st.persistent = true →
          lookupKey key (getFromCache (addToCache st key v t0 ttl) key t1).2.disk = none)) := by
  rcases st with ⟨mem, disk, pers⟩
  constructor
  · intro h1
    have hexp : (CacheEntry.mk v (t0 + (ttl : ℚ))).is_expired t1 = false := by
      simp only [CacheEntry.is_expired, decide_eq_false_iff_not, not_lt]
      linarith
    cases pers <;>
      simp [addToCache, getFromCache, lookup_setKey, hexp]
  · intro h2
    have hexp : (CacheEntry.mk v (t0 + (ttl : ℚ))).is_expired t1 = true := by
      simp only [CacheEntry.is_expired, decide_eq_true_eq]
      linarith
    cases pers with
    | false =>
      simp [addToCache, getFromCache, lookup_setKey, hexp, savePersistentCache,
        diskLookup, lookup_eraseKey]
    | true =>
      have hkeys := eraseKey_keys key (setKey key (CacheEntry.mk v (t0 + (ttl : ℚ))) mem)
      have hsave := lookup_foldl_save key t1
        (eraseKey key (setKey key (CacheEntry.mk v (t0 + (ttl : ℚ))) mem)) hkeys
        (setKey key (CacheEntry.mk v (t0 + (ttl : ℚ))) disk)
      simp [addToCache, getFromCache, lookup_setKey, hexp, savePersistentCache,
        diskLookup, lookup_eraseKey, hsave]

/-- Witness for C8: store `"v"` at time 0 with TTL 10 in a persistent-mode
client; a read at time 5 returns it, a read at time 11 does not. -/
theorem cache_ttl_witness :
    (getFromCache (addToCache (⟨[], [], true⟩ : CacheState String) "k" "v" 0 10) "k" 5).1
      = some "v" ∧
    (getFromCache (addToCache (⟨[], [], true⟩ : CacheState String) "k" "v" 0 10) "k" 11).1
      = none :=
  ⟨(cache_ttl ⟨[], [], true⟩ "k" "v" 10 0 5 (by norm_num)).1 (by norm_num),
   ((cache_ttl ⟨[], [], true⟩ "k" "v" 10 0 11 (by norm_num)).2 (by norm_num)).1⟩

/-! ### Claim C9 — cache key determinism -/

theorem sortParams_eq_of_perm (p1 p2 : List (String × String))
    (hperm : p1.Perm p2) (hnd : p1.Pairwise (fun a b => a.1 ≠ b.1)) :
    sortParams p1 = sortParams p2 := by
  have htrans : ∀ (a b c : String × String),
      decide (a.1 ≤ b.1) = true → decide (b.1 ≤ c.1) = true →
      decide (a.1 ≤ c.1) = true := by
    intro a b c h1 h2
    simp only [decide_eq_true_eq] at h1 h2 ⊢
    exact le_trans h1 h2
  have htotal : ∀ (a b : String × String),
      (decide (a.1 ≤ b.1) || decide (b.1 ≤ a.1)) = true := by
    intro a b
    simp only [Bool.or_eq_true, decide_eq_true_eq]
    exact le_total a.1 b.1
  have hs1 := List.sorted_mergeSort htrans htotal p1
  have hs2 := List.sorted_mergeSort htrans htotal p2
  have hne1 : (sortParams p1).Pairwise (fun a b : String × String => a.1 ≠ b.1) :=
    hnd.perm (List.mergeSort_perm p1 _).symm (fun h => Ne.symm h)
  have hne2 : (sortParams p2).Pairwise (fun a b : String × String => a.1 ≠ b.1) :=
    (hnd.perm hperm (fun h => Ne.symm h)).perm (List.mergeSort_perm p2 _).symm
      (fun h => Ne.symm h)
  have hlt1 : (sortParams p1).Pairwise (fun a b : String × String => a.1 < b.1) :=
    (hs1.and hne1).imp (fun h => lt_of_le_of_ne (by simpa using h.1) h.2)
  have hlt2 : (sortParams p2).Pairwise (fun a b : String × String => a.1 < b.1) :=
    (hs2.and hne2).imp (fun h => lt_of_le_of_ne (by simpa using h.1) h.2)
  have hpp : (sortParams p1).Perm (sortParams p2) :=
    ((List.mergeSort_perm p1 _).trans hperm).trans (List.mergeSort_perm p2 _).symm
  haveI : IsAntisymm (String × String) (fun a b => a.1 < b.1) :=
    ⟨fun a b h1 h2 => absurd (lt_trans h1 h2) (lt_irrefl _)⟩
  exact List.eq_of_perm_of_sorted hpp hlt1 hlt2

set_option maxRecDepth 40000 in
/-- Counterexample to C9 as stated: two distinct ASCII urls (a public MD5
collision pair) get the same cache key for the same (empty) parameters. -/
theorem cache_key_collision :
    collA ≠ collB ∧ getCacheKey collA [] = getCacheKey collB [] := by
  constructor
  · decide
  · decide

/-- Claim C9 (amended): the cache key is invariant under reordering of the
parameter dict (any permutation of entries with pairwise-distinct keys);
for a fixed parameter map, distinct urls always yield distinct pre-hash
`cache_str` values, but the MD5 digest of those strings can collide, so the
keys themselves are not guaranteed distinct. -/
theorem cache_key_order_invariance (url u1 u2 : String)
    (p1 p2 p : List (String × String)) (hperm : p1.Perm p2)
    (hnd : p1.Pairwise (fun a b => a.1 ≠ b.1)) (hne : u1 ≠ u2) :
    getCacheKey url p1 = getCacheKey url p2 ∧ cacheStr u1 p ≠ cacheStr u2 p := by
  constructor
  · by_cases hp1 : p1 = []
    · have hp2 : p2 = [] := by
        rw [hp1] at hperm
        exact (hperm.nil_eq).symm
      rw [hp1, hp2]
    · have hp2 : p2 ≠ [] := by
        intro hc
        rw [hc] at hperm
        exact hp1 hperm.eq_nil
      have hempty1 : p1.isEmpty = false := by
        cases p1
        · exact absurd rfl hp1
        · rfl
      have hempty2 : p2.isEmpty = false := by
        cases p2
        · exact absurd rfl hp2
        · rfl
      have hjson : jsonDumpsSorted p1 = jsonDumpsSorted p2 := by
        unfold jsonDumpsSorted
        rw [sortParams_eq_of_perm p1 p2 hperm hnd]
      simp [getCacheKey, cacheStr, hempty1, hempty2, hjson]
  · intro hc
    apply hne
    have hdata := congrArg String.data hc
    rw [cacheStr, cacheStr] at hdata
    simp only [String.data_append] at hdata
    exact String.ext (List.append_cancel_right hdata)

/-- Witness for the amended C9 at concrete parameter dicts and urls. -/
theorem cache_key_order_invariance_witness :
    getCacheKey "https://api.example.com" [("a", "1"), ("b", "2")] =
      getCacheKey "https://api.example.com" [("b", "2"), ("a", "1")] ∧
    cacheStr "u1" [] ≠ cacheStr "u2" [] :=
  cache_key_order_invariance "https://api.example.com" "u1" "u2"
    [("a", "1"), ("b", "2")] [("b", "2"), ("a", "1")] []
    (by decide) (by decide) (by decide)

/-! ### Claim C10 — `APIClient.get` returns `None` on any transport failure -/

/-- Claim C10: when the transport outcome is any of the failure cases the
`try` block can surface (timeout, connection error, HTTP error status, or
any other exception) and the cache does not answer (miss, or caching off),
`APIClient.get` returns `None`; the embedding is a total function, so no
exception propagates. -/
theorem client_get_none_on_failure {α : Type} (st : CacheState α) (now : ℚ)
    (ttl : ℤ) (base_url : Option String) (url : String)
    (params : List (String × String)) (use_cache : Bool)
    (transport : TransportResult α) (hfail : transport.isFailure = true)
    (hmiss : (getFromCache st (getCacheKey (buildFullUrl base_url url) params) now).1 = none
      ∨ use_cache = false) :
    (clientGet st now ttl base_url url params use_cache transport).1 = none := by
  rcases hg : getFromCache st (getCacheKey (buildFullUrl base_url url) params) now with ⟨r, st1⟩
  cases hu : use_cache with
  | false =>
    cases transport with
    | success b => simp [TransportResult.isFailure] at hfail
    | timeout => simp [clientGet]
    | connectionError => simp [clientGet]
    | httpError s => simp [clientGet]
    | otherError => simp [clientGet]
  | true =>
    have hr : r = none := by
      rcases hmiss with hm | hfalse
      · rw [hg] at hm
        exact hm
      · rw [hu] at hfalse
        cases hfalse
    subst hr
    cases transport with
    | success b => simp [TransportResult.isFailure] at hfail
    | timeout => simp [clientGet, hg]
    | connectionError => simp [clientGet, hg]
    | httpError s => simp [clientGet, hg]
    | otherError => simp [clientGet, hg]

/-- Witness for C10: a fresh client whose transport raises a connection
error returns `None`. -/
theorem client_get_none_on_failure_witness :
    (clientGet (⟨[], [], false⟩ : CacheState String) 0 60 none
      "https://example.com/joke" [] true TransportResult.connectionError).1 = none :=
  client_get_none_on_failure ⟨[], [], false⟩ 0 60 none "https://example.com/joke" []
    true TransportResult.connectionError rfl (Or.inl rfl)

end MoodLifter
